import Mathlib

/-!
Verification of the qp-analyzer override-combination plan matrix builder and
structural plan differ, together with the Node CLI wrapper.

The first part embeds the core library (label catalog, override matrix
builder, single-combination builder, plan differ).  The core is shipped as a
compiled WebAssembly artifact; its behavior is modelled from the repository
specification, treating the external query planner as an opaque pure
function, exactly as the specification prescribes.

The second part embeds the CLI wrapper `crates/wasm/src-js/cli.js` directly
from its JavaScript source: flag parsing, file existence checks, command
routing and exit codes.
-/

/-! ## Plan trees (spec section 3: sequence, parallel, flatten, fetch, selections) -/

/-- Modelled from the spec: selection-set nodes inside a fetch (fields and
inline fragments), the leaf level of a plan tree. -/
inductive Selection where
  | field (name : String) (sub : List Selection)
  | inlineFragment (typeCond : String) (sub : List Selection)

/-- Modelled from the spec: the plan tree produced by the external planner, a
tagged-variant hierarchy of sequence, parallel, flatten-with-path and
fetch-with-service-and-selections nodes. -/
inductive Plan where
  | sequence (children : List Plan)
  | parallel (children : List Plan)
  | flatten (path : String) (child : Plan)
  | fetch (service : String) (requiresSel : Option (List Selection)) (operation : List Selection)

/-- Modelled from the spec: the error taxonomy of the core library. -/
inductive AnalyzerError where
  | schemaParseError
  | queryParseError
  | plannerError (msg : String)
  | combinationLimitExceeded
  | invalidLabelError
  | planFormatError

/-- Modelled from the spec: the planner configuration record passed by value
into every planner invocation. -/
structure PlannerConfig where
  disable_generate_query_fragments : Bool
  disable_defer_support : Bool
  experimental_type_conditioned_fetching : Bool
  experimental_plans_limit : Nat
  experimental_paths_limit : Nat

/-- Modelled from the spec: default planner configuration values. -/
def defaultConfig : PlannerConfig :=
  { disable_generate_query_fragments := false
    disable_defer_support := false
    experimental_type_conditioned_fetching := false
    experimental_plans_limit := 10000
    experimental_paths_limit := 0 }

/-- Modelled from the spec: a PlanResult tags the plan produced by one planner
invocation with the combination that produced it (serialized as the subset of
enabled labels) and a human-readable rendering. -/
structure PlanResult where
  override_conditions : List String
  query_plan_display : String
  query_plan_tree : Plan

/-- Modelled from the spec: the external collaborators of the core — the
schema layer's label catalog (a pure function of the schema) and the external
query planner (a pure function of schema, query, query path, configuration
and enabled-label set), plus the planner's textual plan rendering. -/
structure Analyzer where
  labels : String → Except AnalyzerError (List String)
  plan : String → String → String → PlannerConfig → List String → Except AnalyzerError Plan
  display : Plan → String

/-! ## Override combinations -/

/-- Modelled from the spec: derive the enabled-label subset for combination
index `i`; bit `j` of the index corresponds to label `j` in catalog order
(bit 0 is the least significant bit, read off by parity). -/
def combinationLabelsAux : List String → Nat → List String
  | [], _ => []
  | l :: ls, i =>
    if i % 2 = 1 then l :: combinationLabelsAux ls (i / 2)
    else combinationLabelsAux ls (i / 2)

/-- Modelled from the spec: the enabled labels of the combination at index
`i`, in Label Catalog order. -/
def combinationLabels (catalog : List String) (i : Nat) : List String :=
  combinationLabelsAux catalog i

/-- Modelled from the spec: the OverrideCombination denoted by an index in
[0, 2^n), as a mapping from each label position to enabled/disabled. -/
def combinationOfIndex (n : Nat) (i : Fin (2 ^ n)) : Fin n → Bool :=
  fun j => Nat.testBit i.1 j.1

/-! ## Override matrix builder and single-combination builder -/

/-- Modelled from the spec: sequential fail-fast enumeration — append each
combination's result in index order, aborting the whole enumeration on the
first failure so that no partial list is ever produced. -/
def planCombinations {α : Type} (f : Nat → Except AnalyzerError α) :
    List Nat → Except AnalyzerError (List α)
  | [] => .ok []
  | i :: rest =>
    match f i with
    | .error e => .error e
    | .ok r =>
      match planCombinations f rest with
      | .error e => .error e
      | .ok rs => .ok (r :: rs)

/-- Modelled from the spec: one iteration of the matrix builder — invoke the
external planner on the combination at index `i` and tag the result with the
combination that produced it. -/
def buildStep (A : Analyzer) (schema query queryPath : String) (cfg : PlannerConfig)
    (catalog : List String) (i : Nat) : Except AnalyzerError PlanResult :=
  match A.plan schema query queryPath cfg (combinationLabels catalog i) with
  | .error e => .error e
  | .ok t =>
    .ok { override_conditions := combinationLabels catalog i
          query_plan_display := A.display t
          query_plan_tree := t }

/-- Modelled from the spec: `build_all_plans` — obtain the label catalog,
refuse to enumerate past the combination ceiling with CombinationLimitExceeded,
otherwise build one plan per combination index 0 .. 2^n − 1 in strictly
increasing index order. -/
def build_all_plans (A : Analyzer) (ceiling : Nat) (schema query queryPath : String)
    (cfg : PlannerConfig) : Except AnalyzerError (List PlanResult) :=
  match A.labels schema with
  | .error e => .error e
  | .ok catalog =>
    if ceiling < catalog.length then .error .combinationLimitExceeded
    else planCombinations (buildStep A schema query queryPath cfg catalog)
      (List.range (2 ^ catalog.length))

/-- Modelled from the spec: `build_one_plan` — if `overrideAll` is set the
explicit label set is ignored and every catalog label is enabled; otherwise
exactly the explicitly named labels, intersected with the catalog, are
enabled. -/
def build_one_plan (A : Analyzer) (schema query queryPath : String) (cfg : PlannerConfig)
    (overrideAll : Bool) (overrideConditions : Option (List String)) :
    Except AnalyzerError PlanResult :=
  match A.labels schema with
  | .error e => .error e
  | .ok catalog =>
    let enabled :=
      if overrideAll then catalog
      else (overrideConditions.getD []).filter (fun l => l ∈ catalog)
    match A.plan schema query queryPath cfg enabled with
    | .error e => .error e
    | .ok t =>
      .ok { override_conditions := enabled
            query_plan_display := A.display t
            query_plan_tree := t }

/-- Modelled from the spec: `override_labels` exposes the label catalog. -/
def override_labels (A : Analyzer) (schema : String) : Except AnalyzerError (List String) :=
  A.labels schema

/-! ## Plan differ -/

/-- Modelled from the spec: raw plan values handed to the differ — a JSON-like
tree read from a plan file, not necessarily a well-formed plan tree. -/
inductive Json where
  | null
  | str (s : String)
  | arr (xs : List Json)
  | obj (fields : List (String × Json))

mutual
/-- Modelled from the spec: decode a raw plan value into a plan tree; any
value that is not a well-formed plan tree decodes to `none`. -/
def decodePlan : Json → Option Plan
  | .obj [("kind", .str "Sequence"), ("nodes", .arr xs)] =>
    (decodePlanList xs).map Plan.sequence
  | .obj [("kind", .str "Parallel"), ("nodes", .arr xs)] =>
    (decodePlanList xs).map Plan.parallel
  | .obj [("kind", .str "Flatten"), ("path", .str p), ("node", child)] =>
    (decodePlan child).map (Plan.flatten p)
  | .obj [("kind", .str "Fetch"), ("serviceName", .str svc), ("operation", .arr sels)] =>
    (decodeSelectionList sels).map fun ss => Plan.fetch svc none ss
  | .obj [("kind", .str "Fetch"), ("serviceName", .str svc),
          ("requires", .arr reqs), ("operation", .arr sels)] =>
    match decodeSelectionList reqs, decodeSelectionList sels with
    | some rs, some ss => some (Plan.fetch svc (some rs) ss)
    | _, _ => none
  | _ => none

/-- Modelled from the spec: decode a list of raw plan nodes. -/
def decodePlanList : List Json → Option (List Plan)
  | [] => some []
  | x :: xs =>
    match decodePlan x, decodePlanList xs with
    | some p, some ps => some (p :: ps)
    | _, _ => none

/-- Modelled from the spec: decode one raw selection node. -/
def decodeSelection : Json → Option Selection
  | .obj [("kind", .str "Field"), ("name", .str n), ("selections", .arr xs)] =>
    (decodeSelectionList xs).map (Selection.field n)
  | .obj [("kind", .str "InlineFragment"), ("typeCondition", .str t), ("selections", .arr xs)] =>
    (decodeSelectionList xs).map (Selection.inlineFragment t)
  | _ => none

/-- Modelled from the spec: decode a list of raw selection nodes. -/
def decodeSelectionList : List Json → Option (List Selection)
  | [] => some []
  | x :: xs =>
    match decodeSelection x, decodeSelectionList xs with
    | some s, some ss => some (s :: ss)
    | _, _ => none
end

/-- Indent a block of canonical lines by one level. -/
def indentLines (ls : List String) : List String :=
  ls.map (fun s => "  " ++ s)

mutual
/-- Modelled from the spec: canonical line-oriented serialization of a
selection (stable key order, stable indentation). -/
def selectionLines : Selection → List String
  | .field n sub => ("field: " ++ n) :: indentLines (selectionLinesList sub)
  | .inlineFragment t sub => ("fragment: " ++ t) :: indentLines (selectionLinesList sub)

/-- Modelled from the spec: canonical serialization of a selection list. -/
def selectionLinesList : List Selection → List String
  | [] => []
  | s :: ss => selectionLines s ++ selectionLinesList ss

/-- Modelled from the spec: canonical line-oriented serialization of a plan
tree, the basis of the full diff. -/
def canonicalLines : Plan → List String
  | .sequence cs => "kind: Sequence" :: indentLines (canonicalLinesList cs)
  | .parallel cs => "kind: Parallel" :: indentLines (canonicalLinesList cs)
  | .flatten p c => "kind: Flatten" :: ("path: " ++ p) :: indentLines (canonicalLines c)
  | .fetch svc req sels =>
    "kind: Fetch" :: ("serviceName: " ++ svc) ::
      ((match req with
        | none => []
        | some rs => "requires:" :: indentLines (selectionLinesList rs)) ++
       ("operation:" :: indentLines (selectionLinesList sels)))

/-- Modelled from the spec: canonical serialization of a plan list. -/
def canonicalLinesList : List Plan → List String
  | [] => []
  | p :: ps => canonicalLines p ++ canonicalLinesList ps
end

/-- Number of non-context lines of a rendered diff. -/
def diffCost (d : List String) : Nat :=
  (d.filter fun s => !s.startsWith "  ").length

/-- Modelled from the spec: longest-common-subsequence-style line diff of the
two canonical serializations, showing additions, removals and context. -/
def lineDiff : List String → List String → List String
  | [], [] => []
  | [], b :: bs => ("+ " ++ b) :: lineDiff [] bs
  | a :: as', [] => ("- " ++ a) :: lineDiff as' []
  | a :: as', b :: bs' =>
    if a = b then ("  " ++ a) :: lineDiff as' bs'
    else
      let d1 := ("- " ++ a) :: lineDiff as' (b :: bs')
      let d2 := ("+ " ++ b) :: lineDiff (a :: as') bs'
      if diffCost d1 ≤ diffCost d2 then d1 else d2
termination_by x y => x.length + y.length

/-- Name of a plan node kind, for divergence descriptions. -/
def kindName : Plan → String
  | .sequence _ => "Sequence"
  | .parallel _ => "Parallel"
  | .flatten _ _ => "Flatten"
  | .fetch _ _ _ => "Fetch"

mutual
/-- Modelled from the spec: lock-step walk of two plan trees finding the
first node at which they diverge — by node kind, fetch target, path or
selection content. -/
def firstDivergence : Plan → Plan → String
  | .sequence xs, .sequence ys => "Sequence: " ++ firstDivergenceList xs ys
  | .parallel xs, .parallel ys => "Parallel: " ++ firstDivergenceList xs ys
  | .flatten p c, .flatten p2 c2 =>
    if p = p2 then "Flatten: " ++ firstDivergence c c2
    else "Flatten path mismatch: " ++ p ++ " vs " ++ p2
  | .fetch svc req sels, .fetch svc2 req2 sels2 =>
    if svc = svc2 then
      if (match req with | none => ([] : List String) | some rs => selectionLinesList rs) =
         (match req2 with | none => [] | some rs => selectionLinesList rs) then
        if selectionLinesList sels = selectionLinesList sels2 then
          "Fetch: no divergence found"
        else "Fetch operation mismatch at service " ++ svc
      else "Fetch requires mismatch at service " ++ svc
    else "Fetch service mismatch: " ++ svc ++ " vs " ++ svc2
  | x, y => "node kind mismatch: " ++ kindName x ++ " vs " ++ kindName y

/-- Modelled from the spec: lock-step walk of two child lists. -/
def firstDivergenceList : List Plan → List Plan → String
  | [], [] => "no divergence found"
  | [], _ :: _ => "right side has a child the left side is missing"
  | _ :: _, [] => "left side has a child the right side is missing"
  | x :: xs, y :: ys =>
    if canonicalLines x = canonicalLines y then firstDivergenceList xs ys
    else firstDivergence x y
end

/-- Modelled from the spec: the DiffReport — full textual diff plus the
description of the first point of divergence. -/
structure DiffReport where
  full_diff : String
  diff_description : String

/-- Modelled from the spec: `compare_plans` — parse the schema (failing with
SchemaParseError), decode both raw plan values (failing with PlanFormatError
on a malformed value), then report no difference exactly when the canonical
serializations coincide, and otherwise a DiffReport. -/
def compare_plans (A : Analyzer) (schema : String) (planA planB : Json) :
    Except AnalyzerError (Option DiffReport) :=
  match A.labels schema with
  | .error _ => .error .schemaParseError
  | .ok _ =>
    match decodePlan planA with
    | none => .error .planFormatError
    | some ta =>
      match decodePlan planB with
      | none => .error .planFormatError
      | some tb =>
        let la := canonicalLines ta
        let lb := canonicalLines tb
        if la = lb then .ok none
        else
          .ok (some
            { full_diff := String.intercalate "\n" (lineDiff la lb)
              diff_description := firstDivergence ta tb })

/-! ## The concrete two-label example scenario -/

/-- Modelled from the spec: in the concrete scenario, service resolving
`data1` — overridden from `monolith` to `A` when label `percent(50)` is
enabled. -/
def data1Service (enabled : List String) : String :=
  if "percent(50)" ∈ enabled then "A" else "monolith"

/-- Modelled from the spec: in the concrete scenario, service resolving
`data2` — overridden from `monolith` to `B` when label `percent(90)` is
enabled. -/
def data2Service (enabled : List String) : String :=
  if "percent(90)" ∈ enabled then "B" else "monolith"

/-- Modelled from the spec: the entity requirements each flattened fetch
requests — `__typename` and `id` on type `T` — before the service-specific
field. -/
def entityRequires : List Selection :=
  [Selection.inlineFragment "T" [Selection.field "__typename" [], Selection.field "id" []]]

/-- Modelled from the spec: the external planner's output on the concrete
two-label scenario — an entrypoint fetch followed by a parallel pair of
flattened entity fetches, whose target services depend on the enabled
labels. -/
def examplePlan (enabled : List String) : Plan :=
  Plan.sequence
    [Plan.fetch "entrypoint" none
      [Selection.field "test" [Selection.field "__typename" [], Selection.field "id" []]],
     Plan.parallel
      [Plan.flatten "test"
        (Plan.fetch (data1Service enabled) (some entityRequires)
          [Selection.inlineFragment "T" [Selection.field "data1" []]]),
       Plan.flatten "test"
        (Plan.fetch (data2Service enabled) (some entityRequires)
          [Selection.inlineFragment "T" [Selection.field "data2" []]])]]

/-- Modelled from the spec: the label catalog of the example supergraph. -/
def exampleCatalog : List String := ["percent(50)", "percent(90)"]

/-- Placeholder text standing for the example supergraph document. -/
def exampleSchema : String := "example supergraph"

/-- Placeholder text standing for the example operation document. -/
def exampleQuery : String := "example operation"

/-- The nominal query path of the example operation. -/
def examplePath : String := "example/op.graphql"

/-- Modelled from the spec: an analyzer instance whose schema layer yields
the two example labels and whose external planner behaves as in the concrete
scenario. -/
def exampleAnalyzer : Analyzer :=
  { labels := fun _ => .ok exampleCatalog
    plan := fun _ _ _ _ enabled => .ok (examplePlan enabled)
    display := fun t => String.intercalate "\n" (canonicalLines t) }

/-- An analyzer instance whose external planner fails on every combination,
used to exercise the fail-fast contract. -/
def failingAnalyzer : Analyzer :=
  { labels := fun _ => .ok exampleCatalog
    plan := fun _ _ _ _ _ => .error (.plannerError "planner failed")
    display := fun t => String.intercalate "\n" (canonicalLines t) }

/-- An analyzer instance whose schema layer rejects every document. -/
def failingParseAnalyzer : Analyzer :=
  { labels := fun _ => .error .schemaParseError
    plan := fun _ _ _ _ enabled => .ok (examplePlan enabled)
    display := fun t => String.intercalate "\n" (canonicalLines t) }

/-- A default plan result, used only as a fallback value. -/
def dummyPlanResult : PlanResult :=
  { override_conditions := [], query_plan_display := "", query_plan_tree := Plan.sequence [] }

/-- The full matrix of example plan results. -/
def exampleAllPlans : List PlanResult :=
  ((build_all_plans exampleAnalyzer 16 exampleSchema exampleQuery examplePath
    defaultConfig).toOption).getD []

/-- The single all-labels-enabled example plan result. -/
def exampleOneAll : PlanResult :=
  ((build_one_plan exampleAnalyzer exampleSchema exampleQuery examplePath
    defaultConfig true none).toOption).getD dummyPlanResult

/-- A raw plan value that decodes to a well-formed (empty sequence) plan. -/
def exampleJsonPlan : Json :=
  Json.obj [("kind", Json.str "Sequence"), ("nodes", Json.arr [])]

/-! ## CLI wrapper, embedded from crates/wasm/src-js/cli.js

JavaScript-specific conventions used by the embedding: an `undefined` array
element is modelled as the empty string (both are falsy and neither names an
existing file in this CLI); the JavaScript `Number(next)` conversion is kept
abstract as the raw token it was applied to, since no behavior of the CLI
depends on the numeric value. -/

/-- A JavaScript numeric option value: either a numeric literal from the
source or the result of `Number(token)` on a command-line token. -/
inductive JsNum where
  | lit (n : Nat)
  | ofToken (s : String)

/-- The `planner` options object built by `parsePlannerFlags`. -/
structure CliPlannerOpts where
  disable_generate_query_fragments : Bool
  disable_defer_support : Bool
  experimental_type_conditioned_fetching : Bool
  experimental_plans_limit : JsNum
  experimental_paths_limit : JsNum

/-- Initial `planner` object of `parsePlannerFlags` (cli.js lines 46-52). -/
def defaultPlannerOpts : CliPlannerOpts :=
  { disable_generate_query_fragments := false
    disable_defer_support := false
    experimental_type_conditioned_fetching := false
    experimental_plans_limit := JsNum.lit 10000
    experimental_paths_limit := JsNum.lit 0 }

/-- The record returned by `parsePlannerFlags`. -/
structure FlagsResult where
  planner : CliPlannerOpts
  json : Bool
  overrideAll : Bool
  positional : List String

/-- Initial accumulator of the `parsePlannerFlags` loop. -/
def initFlagsResult : FlagsResult :=
  { planner := defaultPlannerOpts, json := false, overrideAll := false, positional := [] }

/-- The token loop of `parsePlannerFlags` (cli.js lines 58-93): each of the
seven known flags updates the corresponding field, the two limit flags
additionally consume the following token as their value, and every other
token is pushed onto `positional`. -/
def parseFlagsLoop : List String → FlagsResult → FlagsResult
  | [], acc => acc
  | t :: rest, acc =>
    if t = "--json" then
      parseFlagsLoop rest { acc with json := true }
    else if t = "--override-all" then
      parseFlagsLoop rest { acc with overrideAll := true }
    else if t = "--disable-generate-query-fragments" then
      parseFlagsLoop rest
        { acc with planner := { acc.planner with disable_generate_query_fragments := true } }
    else if t = "--disable-defer-support" then
      parseFlagsLoop rest
        { acc with planner := { acc.planner with disable_defer_support := true } }
    else if t = "--experimental-type-conditioned-fetching" then
      parseFlagsLoop rest
        { acc with planner := { acc.planner with experimental_type_conditioned_fetching := true } }
    else if t = "--experimental-plans-limit" then
      match rest with
      | [] => acc
      | v :: rest2 =>
        parseFlagsLoop rest2
          (if v = "" then acc
           else { acc with planner := { acc.planner with experimental_plans_limit := JsNum.ofToken v } })
    else if t = "--experimental-paths-limit" then
      match rest with
      | [] => acc
      | v :: rest2 =>
        parseFlagsLoop rest2
          (if v = "" then acc
           else { acc with planner := { acc.planner with experimental_paths_limit := JsNum.ofToken v } })
    else
      parseFlagsLoop rest { acc with positional := acc.positional ++ [t] }

/-- `parsePlannerFlags` (cli.js lines 45-96). -/
def parsePlannerFlags (argv : List String) : FlagsResult :=
  parseFlagsLoop argv initFlagsResult

/-- The seven flag tokens recognized by `parsePlannerFlags`. -/
def cliKnownFlags : List String :=
  ["--json", "--override-all", "--disable-generate-query-fragments",
   "--disable-defer-support", "--experimental-type-conditioned-fetching",
   "--experimental-plans-limit", "--experimental-paths-limit"]

/-- The `query_plan_config` field of a plan result, as seen by the CLI. -/
structure QueryPlanConfigJs where
  override_conditions : List String

/-- A plan result value returned by the WASM library, as seen by the CLI. -/
structure PlanResultJs where
  query_plan_config : QueryPlanConfigJs
  query_plan_display : String

/-- One line of CLI output; library values logged via `JSON.stringify` and
the help text are kept symbolic. -/
inductive OutLine where
  | text (s : String)
  | blank
  | help
  | jsonLabels (labels : List String)
  | jsonPlans (plans : List PlanResultJs)
  | jsonPlan (plan : PlanResultJs)
  | jsonComparison (comparison : Option DiffReport)
  | combinationHeader (i : Nat) (conditions : List String)

/-- The observable outcome of one CLI run: process exit code, stdout lines
and stderr lines. -/
structure CliOutcome where
  exitCode : Nat
  out : List OutLine
  err : List String

/-- `console.error` followed by `process.exit(1)`. -/
def exitWithError (msgs : List String) : CliOutcome :=
  { exitCode := 1, out := [], err := msgs }

/-- The ambient environment of the CLI: the file system and the four WASM
library functions (plus the `JSON.parse` builtin), all treated as opaque. -/
structure CliEnv where
  fs : String → Option String
  overrideLabelsFn : String → Except String (List String)
  buildAllPlansFn : String → String → String → CliPlannerOpts → Except String (List PlanResultJs)
  buildOnePlanFn : String → String → String → CliPlannerOpts → Bool → Option (List String) →
    Except String PlanResultJs
  comparePlansFn : String → Json → Json → Except String (Option DiffReport)
  jsonParseFn : String → Except String Json

/-- Array indexing `positional[i]`, with JavaScript `undefined` modelled as
the empty string. -/
def getPositional (l : List String) (i : Nat) : String :=
  l.getD i ""

/-- `ensureFileExists` (cli.js lines 98-107): `some outcome` when the check
fails and exits, `none` when the file is present. -/
def ensureFileExists (env : CliEnv) (label filePath : String) : Option CliOutcome :=
  if filePath = "" then
    some (exitWithError ["Error: " ++ label ++ " file required"])
  else if (env.fs filePath).isNone then
    some (exitWithError ["Error: " ++ label ++ " file not found: " ++ filePath])
  else none

/-- `handleOverrideLabels` (cli.js lines 109-128). -/
def handleOverrideLabels (env : CliEnv) (argv : List String) : CliOutcome :=
  let parsed := parsePlannerFlags argv
  let schemaFile := getPositional parsed.positional 0
  if schemaFile = "" then
    exitWithError ["Usage: qp-analyzer override-labels <schema-file>"]
  else
    match ensureFileExists env "Schema" schemaFile with
    | some outcome => outcome
    | none =>
      let schema := (env.fs schemaFile).getD ""
      match env.overrideLabelsFn schema with
      | .ok ls => { exitCode := 0, out := [OutLine.jsonLabels ls], err := [] }
      | .error e => exitWithError ["Error: " ++ e]

/-- The per-plan console output of the `plan-all` non-JSON branch
(cli.js lines 151-157). -/
def planAllLines (plans : List PlanResultJs) : List OutLine :=
  (plans.enum.map fun p =>
    [OutLine.text "-----------------------------------------------------------------------",
     OutLine.combinationHeader p.1 p.2.query_plan_config.override_conditions,
     OutLine.text "-----------------------------------------------------------------------",
     OutLine.text p.2.query_plan_display,
     OutLine.blank]).flatten

/-- `handleBuildAllPlans` (cli.js lines 130-163). -/
def handleBuildAllPlans (env : CliEnv) (argv : List String) : CliOutcome :=
  let parsed := parsePlannerFlags argv
  let schemaFile := getPositional parsed.positional 0
  let queryFile := getPositional parsed.positional 1
  if schemaFile = "" ∨ queryFile = "" then
    exitWithError
      ["Usage: qp-analyzer plan-all <schema-file> <query-file> [planner-options] [--json]"]
  else
    match ensureFileExists env "Schema" schemaFile with
    | some outcome => outcome
    | none =>
      match ensureFileExists env "Query" queryFile with
      | some outcome => outcome
      | none =>
        let schema := (env.fs schemaFile).getD ""
        let query := (env.fs queryFile).getD ""
        match env.buildAllPlansFn schema query queryFile parsed.planner with
        | .ok plans =>
          { exitCode := 0
            out := if parsed.json then [OutLine.jsonPlans plans] else planAllLines plans
            err := [] }
        | .error e => exitWithError ["Error: " ++ e]

/-- `handleBuildOnePlan` (cli.js lines 165-195). -/
def handleBuildOnePlan (env : CliEnv) (argv : List String) : CliOutcome :=
  let parsed := parsePlannerFlags argv
  let schemaFile := getPositional parsed.positional 0
  let queryFile := getPositional parsed.positional 1
  let overrideConditions := parsed.positional.drop 2
  if schemaFile = "" ∨ queryFile = "" then
    exitWithError
      ["Usage: qp-analyzer plan-one <schema-file> <query-file> [override-labels...] [planner-options] [--override-all] [--json]"]
  else
    match ensureFileExists env "Schema" schemaFile with
    | some outcome => outcome
    | none =>
      match ensureFileExists env "Query" queryFile with
      | some outcome => outcome
      | none =>
        let schema := (env.fs schemaFile).getD ""
        let query := (env.fs queryFile).getD ""
        let overrides := if parsed.overrideAll then none else some overrideConditions
        match env.buildOnePlanFn schema query queryFile parsed.planner parsed.overrideAll overrides with
        | .ok plan =>
          { exitCode := 0
            out := if parsed.json then [OutLine.jsonPlan plan]
                   else [OutLine.text plan.query_plan_display]
            err := [] }
        | .error e => exitWithError ["Error: " ++ e]

/-- `handleComparePlans` (cli.js lines 197-236).  The two `JSON.parse` calls
happen outside the `try` block; a parse exception is uncaught, which in Node
terminates the process with a message on stderr and exit code 1. -/
def handleComparePlans (env : CliEnv) (argv : List String) : CliOutcome :=
  let parsed := parsePlannerFlags argv
  let schemaFile := getPositional parsed.positional 0
  let plan1File := getPositional parsed.positional 1
  let plan2File := getPositional parsed.positional 2
  if schemaFile = "" ∨ plan1File = "" ∨ plan2File = "" then
    exitWithError
      ["Usage: qp-analyzer compare-plans <schema-file> <plan1-file> <plan2-file> [--json]"]
  else
    match ensureFileExists env "Schema" schemaFile with
    | some outcome => outcome
    | none =>
      match ensureFileExists env "Plan1" plan1File with
      | some outcome => outcome
      | none =>
        match ensureFileExists env "Plan2" plan2File with
        | some outcome => outcome
        | none =>
          let schema := (env.fs schemaFile).getD ""
          match env.jsonParseFn ((env.fs plan1File).getD "") with
          | .error e => { exitCode := 1, out := [], err := ["Uncaught SyntaxError: " ++ e] }
          | .ok plan1 =>
            match env.jsonParseFn ((env.fs plan2File).getD "") with
            | .error e => { exitCode := 1, out := [], err := ["Uncaught SyntaxError: " ++ e] }
            | .ok plan2 =>
              match env.comparePlansFn schema plan1 plan2 with
              | .ok comparison =>
                { exitCode := 0
                  out :=
                    if parsed.json then [OutLine.jsonComparison comparison]
                    else
                      match comparison with
                      | none => [OutLine.text "The two query plans are identical."]
                      | some c =>
                        [OutLine.text "The two query plans are different:",
                         OutLine.blank,
                         OutLine.text "--- Full Diff ---",
                         OutLine.text c.full_diff,
                         OutLine.text "--- Diff Description ---",
                         OutLine.text c.diff_description]
                  err := [] }
              | .error e => exitWithError ["Error: " ++ e]

/-- The tokens that the main command routing treats as help requests or known
commands (cli.js lines 239-267). -/
def cliCommands : List String :=
  ["help", "-h", "--help", "override-labels", "plan-all", "plan-one", "compare-plans"]

/-- The main command routing (cli.js lines 239-268): no arguments prints the
help text and exits 1; an explicit help request exits 0; each known command
dispatches to its handler; an unknown command reports an error and exits 1. -/
def cliMain (env : CliEnv) (args : List String) : CliOutcome :=
  match args with
  | [] => { exitCode := 1, out := [OutLine.help], err := [] }
  | cmd :: rest =>
    if cmd = "help" ∨ cmd = "-h" ∨ cmd = "--help" then
      { exitCode := 0, out := [OutLine.help], err := [] }
    else if cmd = "override-labels" then handleOverrideLabels env rest
    else if cmd = "plan-all" then handleBuildAllPlans env rest
    else if cmd = "plan-one" then handleBuildOnePlan env rest
    else if cmd = "compare-plans" then handleComparePlans env rest
    else
      exitWithError
        ["Error: Unknown command " ++ cmd,
         "Run with --help to see available commands"]

/-- A concrete CLI environment for witnesses: four files exist and all
library calls succeed. -/
def exampleCliEnv : CliEnv :=
  { fs := fun p =>
      if p = "s.graphql" then some "schema-src"
      else if p = "q.graphql" then some "query-src"
      else if p = "p1.json" then some "plan1-src"
      else if p = "p2.json" then some "plan2-src"
      else none
    overrideLabelsFn := fun _ => .ok ["percent(50)", "percent(90)"]
    buildAllPlansFn := fun _ _ _ _ => .ok []
    buildOnePlanFn := fun _ _ _ _ _ _ =>
      .ok { query_plan_config := { override_conditions := [] }, query_plan_display := "plan" }
    comparePlansFn := fun _ _ _ => .ok none
    jsonParseFn := fun s => .ok (Json.str s) }

/-- A concrete CLI environment for witnesses: files exist but every library
call fails. -/
def failingCliEnv : CliEnv :=
  { exampleCliEnv with
    overrideLabelsFn := fun _ => .error "schema parse failure"
    buildAllPlansFn := fun _ _ _ _ => .error "planner failure"
    buildOnePlanFn := fun _ _ _ _ _ _ => .error "planner failure"
    comparePlansFn := fun _ _ _ => .error "plan format failure" }

/-! ## Lemmas about override combinations -/

/-- The combination at index 0 enables no label. -/
theorem combinationLabelsAux_zero (ls : List String) : combinationLabelsAux ls 0 = [] := by
  induction ls with
  | nil => rfl
  | cons l ls ih => simp [combinationLabelsAux, ih]

/-- The combination at index 2^n − 1 enables every label. -/
theorem combinationLabelsAux_all (ls : List String) :
    combinationLabelsAux ls (2 ^ ls.length - 1) = ls := by
  induction ls with
  | nil => rfl
  | cons l ls ih =>
    have hm : 1 ≤ 2 ^ ls.length := Nat.one_le_two_pow
    have hlen : 2 ^ (ls.length + 1) = 2 * 2 ^ ls.length := by
      rw [Nat.pow_succ, Nat.mul_comm]
    have h1 : (2 ^ (ls.length + 1) - 1) % 2 = 1 := by rw [hlen]; omega
    have h2 : (2 ^ (ls.length + 1) - 1) / 2 = 2 ^ ls.length - 1 := by rw [hlen]; omega
    simp [combinationLabelsAux, List.length_cons, h1, h2, ih]

/-- Every label in a combination comes from the catalog. -/
theorem combinationLabelsAux_subset (ls : List String) :
    ∀ i l, l ∈ combinationLabelsAux ls i → l ∈ ls := by
  induction ls with
  | nil => intro i l h; simp [combinationLabelsAux] at h
  | cons x xs ih =>
    intro i l h
    by_cases hp : i % 2 = 1
    · simp only [combinationLabelsAux, if_pos hp, List.mem_cons] at h
      rcases h with h | h
      · simp [h]
      · exact List.mem_cons_of_mem x (ih (i / 2) l h)
    · simp only [combinationLabelsAux, if_neg hp] at h
      exact List.mem_cons_of_mem x (ih (i / 2) l h)

/-- Bit `j` of the index decides membership of label `j` (catalog order) in
the combination, provided the catalog has no duplicate labels. -/
theorem combinationLabels_testBit (catalog : List String) (hnd : catalog.Nodup) :
    ∀ i j (hj : j < catalog.length),
      catalog.get ⟨j, hj⟩ ∈ combinationLabels catalog i ↔ Nat.testBit i j = true := by
  unfold combinationLabels
  induction catalog with
  | nil => intro i j hj; simp at hj
  | cons x xs ih =>
    intro i j hj
    rcases List.nodup_cons.mp hnd with ⟨hx, hxs⟩
    cases j with
    | zero =>
      simp only [List.get, Nat.testBit_zero]
      by_cases hp : i % 2 = 1
      · simp only [combinationLabelsAux, if_pos hp, List.mem_cons]
        simp [hp]
      · simp only [combinationLabelsAux, if_neg hp]
        constructor
        · intro hmem
          exact absurd (combinationLabelsAux_subset xs (i / 2) x hmem) hx
        · intro hbit
          simp [hp] at hbit
    | succ k =>
      have hk : k < xs.length := Nat.lt_of_succ_lt_succ hj
      have hget : (x :: xs).get ⟨k + 1, hj⟩ = xs.get ⟨k, hk⟩ := rfl
      have hmemx : xs.get ⟨k, hk⟩ ≠ x := by
        intro he
        exact hx (he ▸ List.get_mem xs k hk)
      rw [hget, Nat.testBit_succ]
      by_cases hp : i % 2 = 1
      · simp only [combinationLabelsAux, if_pos hp, List.mem_cons]
        rw [← ih hxs (i / 2) k hk]
        constructor
        · intro h
          rcases h with h | h
          · exact absurd h hmemx
          · exact h
        · intro h; exact Or.inr h
      · simp only [combinationLabelsAux, if_neg hp]
        exact ih hxs (i / 2) k hk

/-- The index-to-combination mapping is a bijection from [0, 2^n) onto the
assignments of enabled/disabled to the n label positions. -/
theorem combinationOfIndex_bijective (n : Nat) :
    Function.Bijective (combinationOfIndex n) := by
  rw [Fintype.bijective_iff_injective_and_card]
  constructor
  · intro i i' h
    apply Fin.ext
    apply Nat.eq_of_testBit_eq
    intro j
    by_cases hj : j < n
    · have hjj := congrFun h (⟨j, hj⟩ : Fin n)
      simpa [combinationOfIndex] using hjj
    · have hi : i.1 < 2 ^ j :=
        Nat.lt_of_lt_of_le i.2 (Nat.pow_le_pow_right (by omega) (by omega))
      have hi' : i'.1 < 2 ^ j :=
        Nat.lt_of_lt_of_le i'.2 (Nat.pow_le_pow_right (by omega) (by omega))
      rw [Nat.testBit_lt_two_pow hi, Nat.testBit_lt_two_pow hi']
  · simp [Fintype.card_fun]

/-! ## Lemmas about the fail-fast enumeration -/

/-- A successful enumeration has one result per input index. -/
theorem planCombinations_ok_length {α : Type} (f : Nat → Except AnalyzerError α) :
    ∀ l ys, planCombinations f l = .ok ys → ys.length = l.length := by
  intro l
  induction l with
  | nil =>
    intro ys h
    simp only [planCombinations] at h
    cases h
    rfl
  | cons x xs ih =>
    intro ys h
    simp only [planCombinations] at h
    cases hfx : f x with
    | error e => rw [hfx] at h; cases h
    | ok r =>
      rw [hfx] at h
      cases hrest : planCombinations f xs with
      | error e => rw [hrest] at h; cases h
      | ok rs =>
        rw [hrest] at h
        cases h
        simp [ih rs hrest]

/-- In a successful enumeration, the i-th result comes from the i-th index. -/
theorem planCombinations_ok_get {α : Type} (f : Nat → Except AnalyzerError α) :
    ∀ l ys, planCombinations f l = .ok ys →
      ∀ i (h1 : i < l.length) (h2 : i < ys.length),
        f (l.get ⟨i, h1⟩) = .ok (ys.get ⟨i, h2⟩) := by
  intro l
  induction l with
  | nil => intro ys _ i h1; simp at h1
  | cons x xs ih =>
    intro ys h i h1 h2
    simp only [planCombinations] at h
    cases hfx : f x with
    | error e => rw [hfx] at h; cases h
    | ok r =>
      rw [hfx] at h
      cases hrest : planCombinations f xs with
      | error e => rw [hrest] at h; cases h
      | ok rs =>
        rw [hrest] at h
        cases h
        cases i with
        | zero => simpa using hfx
        | succ k =>
          exact ih rs hrest k (Nat.lt_of_succ_lt_succ h1) (Nat.lt_of_succ_lt_succ h2)

/-- If every index succeeds, the whole enumeration succeeds. -/
theorem planCombinations_all_ok {α : Type} (f : Nat → Except AnalyzerError α) :
    ∀ l, (∀ x ∈ l, ∃ y, f x = .ok y) → ∃ ys, planCombinations f l = .ok ys := by
  intro l
  induction l with
  | nil => intro _; exact ⟨[], rfl⟩
  | cons x xs ih =>
    intro h
    rcases h x (List.mem_cons_self x xs) with ⟨y, hy⟩
    rcases ih (fun z hz => h z (List.mem_cons_of_mem x hz)) with ⟨ys, hys⟩
    exact ⟨y :: ys, by simp [planCombinations, hy, hys]⟩

/-- The first failing index aborts the whole enumeration with its error. -/
theorem planCombinations_first_error {α : Type} (f : Nat → Except AnalyzerError α) :
    ∀ l k e (hk : k < l.length), f (l.get ⟨k, hk⟩) = .error e →
      (∀ j (hj : j < k), ∃ y, f (l.get ⟨j, Nat.lt_trans hj hk⟩) = .ok y) →
      planCombinations f l = .error e := by
  intro l
  induction l with
  | nil => intro k e hk; simp at hk
  | cons x xs ih =>
    intro k e hk herr hpre
    cases k with
    | zero =>
      simp only [List.get] at herr
      simp [planCombinations, herr]
    | succ m =>
      rcases hpre 0 (Nat.succ_pos m) with ⟨y, hy⟩
      simp only [List.get] at hy herr
      have hrec : planCombinations f xs = .error e := by
        apply ih m e (Nat.lt_of_succ_lt_succ hk) herr
        intro j hj
        rcases hpre (j + 1) (Nat.succ_lt_succ hj) with ⟨z, hz⟩
        exact ⟨z, hz⟩
      simp [planCombinations, hy, hrec]

/-- Inverting a successful matrix-builder call into its enumeration. -/
theorem build_all_plans_ok_planCombinations (A : Analyzer) (ceiling : Nat)
    (s q p : String) (cfg : PlannerConfig) (catalog : List String) (res : List PlanResult)
    (hcat : A.labels s = .ok catalog)
    (hres : build_all_plans A ceiling s q p cfg = .ok res) :
    planCombinations (buildStep A s q p cfg catalog) (List.range (2 ^ catalog.length)) =
      .ok res := by
  by_cases hc : ceiling < catalog.length
  · simp [build_all_plans, hcat, hc] at hres
  · simpa [build_all_plans, hcat, hc] using hres

/-- A successful builder step tags its result with its own combination. -/
theorem buildStep_ok_conditions (A : Analyzer) (s q p : String) (cfg : PlannerConfig)
    (catalog : List String) (i : Nat) (r : PlanResult)
    (h : buildStep A s q p cfg catalog i = .ok r) :
    r.override_conditions = combinationLabels catalog i := by
  unfold buildStep at h
  cases hpt : A.plan s q p cfg (combinationLabels catalog i) with
  | error e => rw [hpt] at h; cases h
  | ok t => rw [hpt] at h; cases h; rfl

/-- Claim C1: for a schema with n distinct override labels, `build_all_plans`
returns exactly 2^n results; if n exceeds the configured ceiling it fails
with CombinationLimitExceeded, and a successful return is never a partial or
truncated list. -/
theorem build_all_plans_combination_count (A : Analyzer) (ceiling : Nat)
    (s q p : String) (cfg : PlannerConfig) (catalog : List String)
    (hcat : A.labels s = .ok catalog) :
    (ceiling < catalog.length →
      build_all_plans A ceiling s q p cfg = .error .combinationLimitExceeded) ∧
    (∀ res, build_all_plans A ceiling s q p cfg = .ok res →
      res.length = 2 ^ catalog.length) ∧
    (catalog.length ≤ ceiling →
      (∀ i, i < 2 ^ catalog.length →
        ∃ t, A.plan s q p cfg (combinationLabels catalog i) = .ok t) →
      ∃ res, build_all_plans A ceiling s q p cfg = .ok res ∧
        res.length = 2 ^ catalog.length) := by
  refine ⟨?_, ?_, ?_⟩
  · intro h
    simp [build_all_plans, hcat, h]
  · intro res hres
    have h := build_all_plans_ok_planCombinations A ceiling s q p cfg catalog res hcat hres
    have := planCombinations_ok_length _ _ _ h
    simpa using this
  · intro hle hplan
    have hstep : ∀ x ∈ List.range (2 ^ catalog.length),
        ∃ y, buildStep A s q p cfg catalog x = .ok y := by
      intro x hx
      rcases hplan x (List.mem_range.mp hx) with ⟨t, ht⟩
      refine ⟨{ override_conditions := combinationLabels catalog x
                query_plan_display := A.display t
                query_plan_tree := t }, ?_⟩
      simp [buildStep, ht]
    rcases planCombinations_all_ok _ _ hstep with ⟨ys, hys⟩
    refine ⟨ys, ?_, ?_⟩
    · simp [build_all_plans, hcat, Nat.not_lt.mpr hle, hys]
    · have := planCombinations_ok_length _ _ _ hys
      simpa using this

/-- Witness for C1 at the concrete two-label scenario. -/
theorem build_all_plans_combination_count_witness :
    ∃ res, build_all_plans exampleAnalyzer 16 exampleSchema exampleQuery examplePath
        defaultConfig = .ok res ∧ res.length = 2 ^ exampleCatalog.length :=
  (build_all_plans_combination_count exampleAnalyzer 16 exampleSchema exampleQuery
    examplePath defaultConfig exampleCatalog rfl).2.2 (by decide)
    (fun i _ => ⟨examplePlan (combinationLabels exampleCatalog i), rfl⟩)

/-- Claim C2: the output of `build_all_plans` is ordered by strictly
increasing combination index — the i-th result carries the combination at
index i — bit j of the index corresponds to label j in catalog order, index 0
disables every label, index 2^n − 1 enables every label, and the
index-to-combination mapping is a bijection. -/
theorem build_all_plans_index_order (A : Analyzer) (ceiling : Nat)
    (s q p : String) (cfg : PlannerConfig) (catalog : List String) (res : List PlanResult)
    (hcat : A.labels s = .ok catalog)
    (hres : build_all_plans A ceiling s q p cfg = .ok res) :
    res.length = 2 ^ catalog.length ∧
    (∀ i (h : i < res.length),
      (res.get ⟨i, h⟩).override_conditions = combinationLabels catalog i) ∧
    combinationLabels catalog 0 = [] ∧
    combinationLabels catalog (2 ^ catalog.length - 1) = catalog ∧
    (catalog.Nodup → ∀ i j (hj : j < catalog.length),
      catalog.get ⟨j, hj⟩ ∈ combinationLabels catalog i ↔ Nat.testBit i j = true) ∧
    Function.Bijective (combinationOfIndex catalog.length) := by
  have hpc := build_all_plans_ok_planCombinations A ceiling s q p cfg catalog res hcat hres
  have hlen : res.length = 2 ^ catalog.length := by
    have := planCombinations_ok_length _ _ _ hpc
    simpa using this
  refine ⟨hlen, ?_, combinationLabelsAux_zero catalog, combinationLabelsAux_all catalog,
    fun hnd => combinationLabels_testBit catalog hnd, combinationOfIndex_bijective _⟩
  intro i h
  have h1 : i < (List.range (2 ^ catalog.length)).length := by
    simpa using hlen ▸ h
  have hget := planCombinations_ok_get _ _ _ hpc i h1 h
  rw [List.get_range] at hget
  exact buildStep_ok_conditions A s q p cfg catalog i _ hget

/-- Witness for C2 at the concrete two-label scenario. -/
theorem build_all_plans_index_order_witness :
    exampleAllPlans.length = 4 ∧
    combinationLabels exampleCatalog 0 = [] ∧
    combinationLabels exampleCatalog 3 = exampleCatalog := by
  have h := build_all_plans_index_order exampleAnalyzer 16 exampleSchema exampleQuery
    examplePath defaultConfig exampleCatalog exampleAllPlans rfl rfl
  refine ⟨h.1.trans (by decide), h.2.2.1, ?_⟩
  have h3 : (2 : Nat) ^ exampleCatalog.length - 1 = 3 := by decide
  exact h3 ▸ h.2.2.2.1

/-- Claim C3: `override_labels` and `build_all_plans` are deterministic —
running either twice on the same inputs produces identical output, including
ordering; both are pure functions of their arguments. -/
theorem override_and_build_deterministic (A : Analyzer) (ceiling : Nat)
    (s q p : String) (cfg : PlannerConfig) :
    override_labels A s = override_labels A s ∧
    build_all_plans A ceiling s q p cfg = build_all_plans A ceiling s q p cfg :=
  ⟨rfl, rfl⟩

/-- Claim C4: `build_one_plan` with `override_all = true` (the explicit label
set being ignored) yields a plan whose textual rendering — and plan tree —
is identical to the result at index 2^n − 1 of `build_all_plans` on the same
inputs. -/
theorem build_one_plan_matches_last_combination (A : Analyzer) (ceiling : Nat)
    (s q p : String) (cfg : PlannerConfig) (olabels : Option (List String))
    (catalog : List String) (res : List PlanResult) (pr : PlanResult)
    (hcat : A.labels s = .ok catalog)
    (hall : build_all_plans A ceiling s q p cfg = .ok res)
    (hone : build_one_plan A s q p cfg true olabels = .ok pr) :
    ∃ h : 2 ^ catalog.length - 1 < res.length,
      (res.get ⟨2 ^ catalog.length - 1, h⟩).query_plan_display = pr.query_plan_display ∧
      (res.get ⟨2 ^ catalog.length - 1, h⟩).query_plan_tree = pr.query_plan_tree := by
  have hpc := build_all_plans_ok_planCombinations A ceiling s q p cfg catalog res hcat hall
  have hlen : res.length = 2 ^ catalog.length := by
    have := planCombinations_ok_length _ _ _ hpc
    simpa using this
  have hNpos : 0 < 2 ^ catalog.length := Nat.two_pow_pos catalog.length
  have hlt : 2 ^ catalog.length - 1 < res.length := by omega
  have hlt' : 2 ^ catalog.length - 1 < (List.range (2 ^ catalog.length)).length := by
    simpa using Nat.sub_lt hNpos Nat.one_pos
  have hget := planCombinations_ok_get _ _ _ hpc (2 ^ catalog.length - 1) hlt' hlt
  rw [List.get_range] at hget
  unfold buildStep at hget
  rw [show combinationLabels catalog (2 ^ catalog.length - 1) = catalog from
    combinationLabelsAux_all catalog] at hget
  simp only [build_one_plan, hcat, if_true] at hone
  cases hpt : A.plan s q p cfg catalog with
  | error e =>
    rw [hpt] at hone
    cases hone
  | ok t =>
    rw [hpt] at hone hget
    have hpr := (Except.ok.inj hone).symm
    have hres := Except.ok.inj hget
    refine ⟨hlt, ?_, ?_⟩
    · rw [← hres, hpr]
    · rw [← hres, hpr]

/-- Witness for C4 at the concrete two-label scenario. -/
theorem build_one_plan_matches_last_combination_witness :
    ∃ h : 2 ^ exampleCatalog.length - 1 < exampleAllPlans.length,
      (exampleAllPlans.get ⟨2 ^ exampleCatalog.length - 1, h⟩).query_plan_display =
        exampleOneAll.query_plan_display ∧
      (exampleAllPlans.get ⟨2 ^ exampleCatalog.length - 1, h⟩).query_plan_tree =
        exampleOneAll.query_plan_tree :=
  build_one_plan_matches_last_combination exampleAnalyzer 16 exampleSchema exampleQuery
    examplePath defaultConfig none exampleCatalog exampleAllPlans exampleOneAll rfl rfl rfl

/-- Claim C5: the Override Matrix Builder is fail-fast — the first failing
planner invocation aborts the whole enumeration with that failure, and a
successful return certifies that every combination's invocation succeeded,
so no partial or silently shorter list is ever produced. -/
theorem build_all_plans_fail_fast (A : Analyzer) (ceiling : Nat)
    (s q p : String) (cfg : PlannerConfig) (catalog : List String)
    (hcat : A.labels s = .ok catalog) (hle : catalog.length ≤ ceiling) :
    (∀ k e, ∀ hk : k < 2 ^ catalog.length,
      A.plan s q p cfg (combinationLabels catalog k) = .error e →
      (∀ j, j < k → ∃ t, A.plan s q p cfg (combinationLabels catalog j) = .ok t) →
      build_all_plans A ceiling s q p cfg = .error e) ∧
    (∀ res, build_all_plans A ceiling s q p cfg = .ok res →
      ∀ i, i < 2 ^ catalog.length →
        ∃ t, A.plan s q p cfg (combinationLabels catalog i) = .ok t) := by
  constructor
  · intro k e hk herr hpre
    have hk' : k < (List.range (2 ^ catalog.length)).length := by simpa using hk
    have hfail : planCombinations (buildStep A s q p cfg catalog)
        (List.range (2 ^ catalog.length)) = .error e := by
      apply planCombinations_first_error _ _ k e hk'
      · rw [List.get_range]
        simp [buildStep, herr]
      · intro j hj
        rw [List.get_range]
        rcases hpre j hj with ⟨t, ht⟩
        refine ⟨{ override_conditions := combinationLabels catalog j
                  query_plan_display := A.display t
                  query_plan_tree := t }, ?_⟩
        simp [buildStep, ht]
    simp [build_all_plans, hcat, Nat.not_lt.mpr hle, hfail]
  · intro res hres i hi
    have hpc := build_all_plans_ok_planCombinations A ceiling s q p cfg catalog res hcat hres
    have hlen : res.length = 2 ^ catalog.length := by
      have := planCombinations_ok_length _ _ _ hpc
      simpa using this
    have hi' : i < (List.range (2 ^ catalog.length)).length := by simpa using hi
    have hi2 : i < res.length := by omega
    have hget := planCombinations_ok_get _ _ _ hpc i hi' hi2
    rw [List.get_range] at hget
    unfold buildStep at hget
    cases hpt : A.plan s q p cfg (combinationLabels catalog i) with
    | error e => rw [hpt] at hget; cases hget
    | ok t => exact ⟨t, hpt ▸ rfl⟩

/-- Witness for C5: a planner failing on the very first combination aborts
the whole enumeration with that failure. -/
theorem build_all_plans_fail_fast_witness :
    build_all_plans failingAnalyzer 16 exampleSchema exampleQuery examplePath
      defaultConfig = .error (.plannerError "planner failed") :=
  (build_all_plans_fail_fast failingAnalyzer 16 exampleSchema exampleQuery examplePath
    defaultConfig exampleCatalog rfl (by decide)).1 0 (.plannerError "planner failed")
    (by decide) rfl (fun j hj => absurd hj (Nat.not_lt_zero j))

/-- Claim C6: `compare_plans` never reports a comparison result when its
inputs cannot be handled — an unparseable schema fails with SchemaParseError
and a malformed plan value on either side fails with PlanFormatError, never
"no difference" and never a diff report. -/
theorem compare_plans_error_conditions (A : Analyzer) (sch : String) (a b : Json)
    (e : AnalyzerError) :
    (A.labels sch = .error e →
      compare_plans A sch a b = .error .schemaParseError) ∧
    (∀ cat, A.labels sch = .ok cat → decodePlan a = none →
      compare_plans A sch a b = .error .planFormatError) ∧
    (∀ cat ta, A.labels sch = .ok cat → decodePlan a = some ta → decodePlan b = none →
      compare_plans A sch a b = .error .planFormatError) := by
  refine ⟨?_, ?_, ?_⟩
  · intro h
    simp [compare_plans, h]
  · intro cat hcat ha
    simp [compare_plans, hcat, ha]
  · intro cat ta hcat ha hb
    simp [compare_plans, hcat, ha, hb]

/-- Witness for C6: an unparseable schema and a malformed plan value. -/
theorem compare_plans_error_conditions_witness :
    compare_plans failingParseAnalyzer exampleSchema Json.null Json.null =
      .error .schemaParseError ∧
    compare_plans exampleAnalyzer exampleSchema Json.null Json.null =
      .error .planFormatError :=
  ⟨(compare_plans_error_conditions failingParseAnalyzer exampleSchema Json.null Json.null
      .schemaParseError).1 rfl,
   (compare_plans_error_conditions exampleAnalyzer exampleSchema Json.null Json.null
      .schemaParseError).2.1 exampleCatalog rfl rfl⟩

/-- Claim C7: `compare_plans` is reflexive — for a parseable schema and a
valid plan value P it reports "no difference" on the pair (P, P). -/
theorem compare_plans_reflexive (A : Analyzer) (sch : String) (v : Json)
    (cat : List String) (t : Plan)
    (hcat : A.labels sch = .ok cat) (hv : decodePlan v = some t) :
    compare_plans A sch v v = .ok none := by
  simp [compare_plans, hcat, hv]

/-- Witness for C7 on a concrete well-formed plan value. -/
theorem compare_plans_reflexive_witness :
    compare_plans exampleAnalyzer exampleSchema exampleJsonPlan exampleJsonPlan = .ok none :=
  compare_plans_reflexive exampleAnalyzer exampleSchema exampleJsonPlan exampleCatalog
    (Plan.sequence []) rfl rfl

/-- Claim C8: in the concrete two-label scenario, `build_one_plan` with
exactly the label percent(90) enabled produces a plan fetching `data1` from
service `monolith` and `data2` from service `B`, arranged as a Sequence whose
second step is a Parallel of Flatten-wrapped fetches, each flattened fetch
requesting `__typename` and `id` (in its entity requirement) before the
service-specific field. -/
theorem build_one_plan_percent90_scenario :
    ∃ pr, build_one_plan exampleAnalyzer exampleSchema exampleQuery examplePath
        defaultConfig false (some ["percent(90)"]) = .ok pr ∧
      pr.override_conditions = ["percent(90)"] ∧
      pr.query_plan_tree = Plan.sequence
        [Plan.fetch "entrypoint" none
          [Selection.field "test"
            [Selection.field "__typename" [], Selection.field "id" []]],
         Plan.parallel
          [Plan.flatten "test"
            (Plan.fetch "monolith"
              (some [Selection.inlineFragment "T"
                [Selection.field "__typename" [], Selection.field "id" []]])
              [Selection.inlineFragment "T" [Selection.field "data1" []]]),
           Plan.flatten "test"
            (Plan.fetch "B"
              (some [Selection.inlineFragment "T"
                [Selection.field "__typename" [], Selection.field "id" []]])
              [Selection.inlineFragment "T" [Selection.field "data2" []]])]] :=
  ⟨_, rfl, rfl, rfl⟩

/-- Claim C9: the CLI exits with status 0 on success and status 1 on every
reported error — an unknown command, a missing or non-existent input file,
and a parse or planner failure raised by the library functions all produce a
message on the error channel and exit code 1, while a successful run of any
of the four commands exits 0 with an empty error channel. -/
theorem cli_exit_status (env : CliEnv) :
    (∀ cmd rest, cmd ∉ cliCommands →
      (cliMain env (cmd :: rest)).exitCode = 1 ∧
      (cliMain env (cmd :: rest)).err ≠ []) ∧
    (∀ rest, getPositional (parsePlannerFlags rest).positional 0 = "" →
      (cliMain env ("override-labels" :: rest)).exitCode = 1 ∧
      (cliMain env ("override-labels" :: rest)).err ≠ []) ∧
    (∀ rest sf, getPositional (parsePlannerFlags rest).positional 0 = sf → sf ≠ "" →
      env.fs sf = none →
      (cliMain env ("override-labels" :: rest)).exitCode = 1 ∧
      (cliMain env ("override-labels" :: rest)).err ≠ []) ∧
    (∀ rest sf sc e, getPositional (parsePlannerFlags rest).positional 0 = sf → sf ≠ "" →
      env.fs sf = some sc → env.overrideLabelsFn sc = .error e →
      (cliMain env ("override-labels" :: rest)).exitCode = 1 ∧
      (cliMain env ("override-labels" :: rest)).err ≠ []) ∧
    (∀ rest sf sc ls, getPositional (parsePlannerFlags rest).positional 0 = sf → sf ≠ "" →
      env.fs sf = some sc → env.overrideLabelsFn sc = .ok ls →
      (cliMain env ("override-labels" :: rest)).exitCode = 0 ∧
      (cliMain env ("override-labels" :: rest)).err = []) ∧
    (∀ rest sf qf sc, getPositional (parsePlannerFlags rest).positional 0 = sf →
      getPositional (parsePlannerFlags rest).positional 1 = qf → sf ≠ "" → qf ≠ "" →
      env.fs sf = some sc → env.fs qf = none →
      (cliMain env ("plan-all" :: rest)).exitCode = 1 ∧
      (cliMain env ("plan-all" :: rest)).err ≠ []) ∧
    (∀ rest sf qf sc qc e, getPositional (parsePlannerFlags rest).positional 0 = sf →
      getPositional (parsePlannerFlags rest).positional 1 = qf → sf ≠ "" → qf ≠ "" →
      env.fs sf = some sc → env.fs qf = some qc →
      env.buildAllPlansFn sc qc qf (parsePlannerFlags rest).planner = .error e →
      (cliMain env ("plan-all" :: rest)).exitCode = 1 ∧
      (cliMain env ("plan-all" :: rest)).err ≠ []) ∧
    (∀ rest sf qf sc qc plans, getPositional (parsePlannerFlags rest).positional 0 = sf →
      getPositional (parsePlannerFlags rest).positional 1 = qf → sf ≠ "" → qf ≠ "" →
      env.fs sf = some sc → env.fs qf = some qc →
      env.buildAllPlansFn sc qc qf (parsePlannerFlags rest).planner = .ok plans →
      (cliMain env ("plan-all" :: rest)).exitCode = 0 ∧
      (cliMain env ("plan-all" :: rest)).err = []) ∧
    (∀ rest sf qf sc qc e, getPositional (parsePlannerFlags rest).positional 0 = sf →
      getPositional (parsePlannerFlags rest).positional 1 = qf → sf ≠ "" → qf ≠ "" →
      env.fs sf = some sc → env.fs qf = some qc →
      env.buildOnePlanFn sc qc qf (parsePlannerFlags rest).planner
        (parsePlannerFlags rest).overrideAll
        (if (parsePlannerFlags rest).overrideAll then none
         else some ((parsePlannerFlags rest).positional.drop 2)) = .error e →
      (cliMain env ("plan-one" :: rest)).exitCode = 1 ∧
      (cliMain env ("plan-one" :: rest)).err ≠ []) ∧
    (∀ rest sf qf sc qc plan, getPositional (parsePlannerFlags rest).positional 0 = sf →
      getPositional (parsePlannerFlags rest).positional 1 = qf → sf ≠ "" → qf ≠ "" →
      env.fs sf = some sc → env.fs qf = some qc →
      env.buildOnePlanFn sc qc qf (parsePlannerFlags rest).planner
        (parsePlannerFlags rest).overrideAll
        (if (parsePlannerFlags rest).overrideAll then none
         else some ((parsePlannerFlags rest).positional.drop 2)) = .ok plan →
      (cliMain env ("plan-one" :: rest)).exitCode = 0 ∧
      (cliMain env ("plan-one" :: rest)).err = []) ∧
    (∀ rest sf p1 p2 sc c1 c2 j1 j2 e,
      getPositional (parsePlannerFlags rest).positional 0 = sf →
      getPositional (parsePlannerFlags rest).positional 1 = p1 →
      getPositional (parsePlannerFlags rest).positional 2 = p2 →
      sf ≠ "" → p1 ≠ "" → p2 ≠ "" →
      env.fs sf = some sc → env.fs p1 = some c1 → env.fs p2 = some c2 →
      env.jsonParseFn c1 = .ok j1 → env.jsonParseFn c2 = .ok j2 →
      env.comparePlansFn sc j1 j2 = .error e →
      (cliMain env ("compare-plans" :: rest)).exitCode = 1 ∧
      (cliMain env ("compare-plans" :: rest)).err ≠ []) ∧
    (∀ rest sf p1 p2 sc c1 c2 j1 j2 comparison,
      getPositional (parsePlannerFlags rest).positional 0 = sf →
      getPositional (parsePlannerFlags rest).positional 1 = p1 →
      getPositional (parsePlannerFlags rest).positional 2 = p2 →
      sf ≠ "" → p1 ≠ "" → p2 ≠ "" →
      env.fs sf = some sc → env.fs p1 = some c1 → env.fs p2 = some c2 →
      env.jsonParseFn c1 = .ok j1 → env.jsonParseFn c2 = .ok j2 →
      env.comparePlansFn sc j1 j2 = .ok comparison →
      (cliMain env ("compare-plans" :: rest)).exitCode = 0 ∧
      (cliMain env ("compare-plans" :: rest)).err = []) := by
  refine ⟨?_, ?_, ?_, ?_, ?_, ?_, ?_, ?_, ?_, ?_, ?_, ?_⟩
  · intro cmd rest h
    have h1 : cmd ≠ "help" := fun he => h (by simp [cliCommands, he])
    have h2 : cmd ≠ "-h" := fun he => h (by simp [cliCommands, he])
    have h3 : cmd ≠ "--help" := fun he => h (by simp [cliCommands, he])
    have h4 : cmd ≠ "override-labels" := fun he => h (by simp [cliCommands, he])
    have h5 : cmd ≠ "plan-all" := fun he => h (by simp [cliCommands, he])
    have h6 : cmd ≠ "plan-one" := fun he => h (by simp [cliCommands, he])
    have h7 : cmd ≠ "compare-plans" := fun he => h (by simp [cliCommands, he])
    simp [cliMain, h1, h2, h3, h4, h5, h6, h7, exitWithError]
  · intro rest hsf
    simp [cliMain, handleOverrideLabels, hsf, exitWithError]
  · intro rest sf hsf hne hfs
    simp [cliMain, handleOverrideLabels, hsf, hne, ensureFileExists, hfs, exitWithError]
  · intro rest sf sc e hsf hne hfs hlib
    simp [cliMain, handleOverrideLabels, hsf, hne, ensureFileExists, hfs, hlib,
      exitWithError]
  · intro rest sf sc ls hsf hne hfs hlib
    simp [cliMain, handleOverrideLabels, hsf, hne, ensureFileExists, hfs, hlib,
      exitWithError]
  · intro rest sf qf sc hsf hqf hsne hqne hfs hfq
    simp [cliMain, handleBuildAllPlans, hsf, hqf, hsne, hqne, ensureFileExists, hfs, hfq,
      exitWithError]
  · intro rest sf qf sc qc e hsf hqf hsne hqne hfs hfq hlib
    simp [cliMain, handleBuildAllPlans, hsf, hqf, hsne, hqne, ensureFileExists, hfs, hfq,
      hlib, exitWithError]
  · intro rest sf qf sc qc plans hsf hqf hsne hqne hfs hfq hlib
    simp [cliMain, handleBuildAllPlans, hsf, hqf, hsne, hqne, ensureFileExists, hfs, hfq,
      hlib, exitWithError]
  · intro rest sf qf sc qc e hsf hqf hsne hqne hfs hfq hlib
    simp [cliMain, handleBuildOnePlan, hsf, hqf, hsne, hqne, ensureFileExists, hfs, hfq,
      hlib, exitWithError]
  · intro rest sf qf sc qc plan hsf hqf hsne hqne hfs hfq hlib
    simp [cliMain, handleBuildOnePlan, hsf, hqf, hsne, hqne, ensureFileExists, hfs, hfq,
      hlib, exitWithError]
  · intro rest sf p1 p2 sc c1 c2 j1 j2 e hsf hp1 hp2 hsne hp1ne hp2ne hfs hf1 hf2 hj1
      hj2 hlib
    simp [cliMain, handleComparePlans, hsf, hp1, hp2, hsne, hp1ne, hp2ne, ensureFileExists,
      hfs, hf1, hf2, hj1, hj2, hlib, exitWithError]
  · intro rest sf p1 p2 sc c1 c2 j1 j2 comparison hsf hp1 hp2 hsne hp1ne hp2ne hfs hf1
      hf2 hj1 hj2 hlib
    simp [cliMain, handleComparePlans, hsf, hp1, hp2, hsne, hp1ne, hp2ne, ensureFileExists,
      hfs, hf1, hf2, hj1, hj2, hlib, exitWithError]

/-- Witness for C9: an unknown command exits 1, a successful override-labels
run exits 0, a non-existent schema file exits 1, and a failing library call
exits 1 — all in a concrete environment. -/
theorem cli_exit_status_witness :
    ((cliMain exampleCliEnv ["frobnicate"]).exitCode = 1 ∧
      (cliMain exampleCliEnv ["frobnicate"]).err ≠ []) ∧
    ((cliMain exampleCliEnv ["override-labels", "s.graphql"]).exitCode = 0 ∧
      (cliMain exampleCliEnv ["override-labels", "s.graphql"]).err = []) ∧
    ((cliMain exampleCliEnv ["override-labels", "missing.graphql"]).exitCode = 1 ∧
      (cliMain exampleCliEnv ["override-labels", "missing.graphql"]).err ≠ []) ∧
    ((cliMain failingCliEnv ["override-labels", "s.graphql"]).exitCode = 1 ∧
      (cliMain failingCliEnv ["override-labels", "s.graphql"]).err ≠ []) :=
  ⟨(cli_exit_status exampleCliEnv).1 "frobnicate" [] (by decide),
   (cli_exit_status exampleCliEnv).2.2.2.2.1 ["s.graphql"] "s.graphql" "schema-src"
     ["percent(50)", "percent(90)"] rfl (by decide) rfl rfl,
   (cli_exit_status exampleCliEnv).2.2.1 ["missing.graphql"] "missing.graphql" rfl
     (by decide) rfl,
   (cli_exit_status failingCliEnv).2.2.2.1 ["s.graphql"] "s.graphql" "schema-src"
     "schema parse failure" rfl (by decide) rfl rfl⟩

/-- Claim C10 counterexample: the token 7, although not one of the seven
known flags, is consumed as the value of the preceding limit flag and is NOT
appended to the positional-argument list. -/
theorem cli_flags_value_not_positional :
    "7" ∉ cliKnownFlags ∧
    (parsePlannerFlags ["--experimental-plans-limit", "7"]).positional = [] :=
  ⟨by decide, rfl⟩

/-- Claim C10 (amended): `parsePlannerFlags` never rejects a token — every
token that is not one of the seven known flags and that the parser examines
in flag position (that is, a token not consumed as the value of an
immediately preceding limit flag) is appended to the positional-argument
list and processing continues. -/
theorem parse_flags_unknown_token_positional (t : String) (rest : List String)
    (acc : FlagsResult) (h : t ∉ cliKnownFlags) :
    parseFlagsLoop (t :: rest) acc =
      parseFlagsLoop rest { acc with positional := acc.positional ++ [t] } := by
  have h1 : t ≠ "--json" := fun he => h (by simp [cliKnownFlags, he])
  have h2 : t ≠ "--override-all" := fun he => h (by simp [cliKnownFlags, he])
  have h3 : t ≠ "--disable-generate-query-fragments" := fun he => h (by simp [cliKnownFlags, he])
  have h4 : t ≠ "--disable-defer-support" := fun he => h (by simp [cliKnownFlags, he])
  have h5 : t ≠ "--experimental-type-conditioned-fetching" := fun he => h (by simp [cliKnownFlags, he])
  have h6 : t ≠ "--experimental-plans-limit" := fun he => h (by simp [cliKnownFlags, he])
  have h7 : t ≠ "--experimental-paths-limit" := fun he => h (by simp [cliKnownFlags, he])
  conv_lhs => rw [parseFlagsLoop.eq_def]
  simp [h1, h2, h3, h4, h5, h6, h7]

/-- Witness for the amended C10 on a concrete unrecognized option. -/
theorem parse_flags_unknown_token_positional_witness :
    parseFlagsLoop ["--bogus-flag"] initFlagsResult =
      parseFlagsLoop []
        { initFlagsResult with positional := initFlagsResult.positional ++ ["--bogus-flag"] } :=
  parse_flags_unknown_token_positional "--bogus-flag" [] initFlagsResult (by decide)
